import Mathlib

/-!
Verification of the SaaS-Auto-Factory front-end.

The program is a browser front-end (React + a Gemini service module).  We embed
its pure logic shallowly:

* strings become `List Char` (JS strings at the level of characters; the
  needles and fences involved are ASCII, so UTF-16 indexing differences are
  immaterial to the stated properties);
* the JSON-cleanup helper `cleanJsonString`, the mermaid fence stripping of
  `ProductUserFlowDesigner`, the error classifier `handleApiError` and the
  catch blocks of `IdeaRadarAgent` / `DecisionGateAgent` become pure functions
  of the relevant text;
* the React component state (`FactoryState`, the `apiKeyError` banner) becomes
  a state type with a `step` function over user actions, where each async
  handler is one atomic action parameterised by the outcome of its network
  call, and an action is applied only when the UI renders the corresponding
  control (conditional rendering / `disabled` / `pointer-events-none` guards).
-/

/-- The backtick character (0x60), written via its code point. -/
def btick : Char := Char.ofNat 96

/-- Opening brace character. -/
def obr : Char := Char.ofNat 123

/-- Closing brace character. -/
def cbr : Char := Char.ofNat 125

/-- JavaScript regex `\s` character class (ECMA-262 WhiteSpace ∪ LineTerminator). -/
def jsWhitespace (c : Char) : Bool :=
  decide ((9 ≤ c.toNat ∧ c.toNat ≤ 13) ∨ c.toNat = 32 ∨ c.toNat = 160 ∨ c.toNat = 5760 ∨
    (8192 ≤ c.toNat ∧ c.toNat ≤ 8202) ∨ c.toNat = 8232 ∨ c.toNat = 8233 ∨
    c.toNat = 8239 ∨ c.toNat = 8287 ∨ c.toNat = 12288 ∨ c.toNat = 65279)

/-- Drop the leading maximal run of `\s` characters (the greedy `\s*` after a fence). -/
def dropWs : List Char → List Char
  | [] => []
  | c :: cs => if jsWhitespace c then dropWs cs else c :: cs

theorem dropWs_length_le (l : List Char) : (dropWs l).length ≤ l.length := by
  induction l with
  | nil => simp [dropWs]
  | cons c cs ih =>
    simp only [dropWs]
    split
    · exact le_trans ih (Nat.le_succ _)
    · simp

/-- One global pass of `text.replace(/```json\s*/g, '')` (geminiService,
`cleanJsonString`): scan left to right; at a position where the literal
```` ```json ```` matches, delete it together with the following whitespace
run and resume after it, otherwise keep the character. -/
def stripJsonFences : List Char → List Char
  | [] => []
  | c :: cs =>
    if c = btick ∧ cs.take 6 = [btick, btick, 'j', 's', 'o', 'n'] then
      stripJsonFences (dropWs (cs.drop 6))
    else
      c :: stripJsonFences cs
termination_by l => l.length
decreasing_by
  · have h1 := dropWs_length_le (cs.drop 6)
    have h2 : (cs.drop 6).length ≤ cs.length := by simp
    simp only [List.length_cons]
    omega
  · simp

/-- One global pass of `text.replace(/```\s*/g, '')`. -/
def stripTicks : List Char → List Char
  | [] => []
  | c :: cs =>
    if c = btick ∧ cs.take 2 = [btick, btick] then
      stripTicks (dropWs (cs.drop 2))
    else
      c :: stripTicks cs
termination_by l => l.length
decreasing_by
  · have h1 := dropWs_length_le (cs.drop 2)
    have h2 : (cs.drop 2).length ≤ cs.length := by simp
    simp only [List.length_cons]
    omega
  · simp

/-- The fence-stripped text of `cleanJsonString`:
`text.replace(/```json\s*/g, '').replace(/```\s*/g, '')`. -/
def stripFences (text : List Char) : List Char :=
  stripTicks (stripJsonFences text)

/-- Index of the first occurrence of a character (JS `indexOf`, `none` for -1). -/
def indexOfChar (c : Char) : List Char → Option Nat
  | [] => none
  | a :: as => if a = c then some 0 else (indexOfChar c as).map (· + 1)

/-- Index of the last occurrence of a character (JS `lastIndexOf`, `none` for -1). -/
def lastIndexOfChar (c : Char) : List Char → Option Nat
  | [] => none
  | a :: as =>
    match lastIndexOfChar c as with
    | some i => some (i + 1)
    | none => if a = c then some 0 else none

/-- Function `cleanJsonString` (geminiService lines 46-61): strip markdown fences, then
extract from the first `{` to the last `}` when the first `{` comes before the
last `}`; an empty input yields the two-character braces string.  The local
`clean` of the source is `stripFences text`. -/
def cleanJsonString (text : List Char) : List Char :=
  if text = [] then [obr, cbr]
  else
    match indexOfChar obr (stripFences text), lastIndexOfChar cbr (stripFences text) with
    | some i, some j =>
      if i < j then ((stripFences text).drop i).take (j + 1 - i) else stripFences text
    | some _, none => stripFences text
    | none, _ => stripFences text

/-- The characters the JSON-extraction step keys on. -/
def isBrace (c : Char) : Bool := c == obr || c == cbr

theorem ws_not_brace (c : Char) (h : jsWhitespace c = true) : isBrace c = false := by
  rcases hb : isBrace c with _ | _
  · rfl
  · exfalso
    have : c = obr ∨ c = cbr := by
      simpa [isBrace] using hb
    rcases this with rfl | rfl
    · exact absurd h (by decide)
    · exact absurd h (by decide)

theorem dropWs_filter (l : List Char) :
    (dropWs l).filter isBrace = l.filter isBrace := by
  induction l with
  | nil => rfl
  | cons c cs ih =>
    rw [dropWs]
    split
    · rename_i hws
      rw [ih, List.filter_cons_of_neg (by simp [ws_not_brace c hws])]
    · rfl

theorem stripJsonFences_filter (l : List Char) :
    (stripJsonFences l).filter isBrace = l.filter isBrace := by
  induction l using stripJsonFences.induct with
  | case1 => rw [stripJsonFences]
  | case2 c cs h ih =>
    obtain ⟨hc, ht⟩ := h
    subst hc
    rw [stripJsonFences, if_pos ⟨rfl, ht⟩, ih, dropWs_filter]
    conv_rhs => rw [← List.take_append_drop 6 cs, ht]
    rw [List.filter_cons_of_neg (by decide), List.filter_append]
    have he : [btick, btick, 'j', 's', 'o', 'n'].filter isBrace = [] := by decide
    rw [he, List.nil_append]
  | case3 c cs h ih =>
    rw [stripJsonFences, if_neg h, List.filter_cons, List.filter_cons, ih]

theorem stripTicks_filter (l : List Char) :
    (stripTicks l).filter isBrace = l.filter isBrace := by
  induction l using stripTicks.induct with
  | case1 => rw [stripTicks]
  | case2 c cs h ih =>
    obtain ⟨hc, ht⟩ := h
    subst hc
    rw [stripTicks, if_pos ⟨rfl, ht⟩, ih, dropWs_filter]
    conv_rhs => rw [← List.take_append_drop 2 cs, ht]
    rw [List.filter_cons_of_neg (by decide), List.filter_append]
    have he : [btick, btick].filter isBrace = [] := by decide
    rw [he, List.nil_append]
  | case3 c cs h ih =>
    rw [stripTicks, if_neg h, List.filter_cons, List.filter_cons, ih]

theorem sublist_pair_decomp {a b : Char} :
    ∀ l : List Char, List.Sublist [a, b] l → ∃ u v w, l = u ++ (a :: (v ++ (b :: w))) := by
  intro l h
  induction l with
  | nil => cases h
  | cons c t ih =>
    cases h with
    | cons x h2 =>
      obtain ⟨u, v, w, rfl⟩ := ih h2
      exact ⟨c :: u, v, w, rfl⟩
    | cons₂ x h2 =>
      have hb : b ∈ t := h2.subset (by simp)
      obtain ⟨v, w, rfl⟩ := List.append_of_mem hb
      exact ⟨[], v, w, rfl⟩

theorem indexOfChar_append (c : Char) (u rest : List Char) :
    ∃ i, indexOfChar c (u ++ c :: rest) = some i ∧ i ≤ u.length := by
  induction u with
  | nil => exact ⟨0, by simp [indexOfChar], Nat.zero_le _⟩
  | cons a u ih =>
    by_cases hac : a = c
    · exact ⟨0, by simp [indexOfChar, hac], Nat.zero_le _⟩
    · obtain ⟨i, hi, hle⟩ := ih
      refine ⟨i + 1, ?_, by simpa using Nat.succ_le_succ hle⟩
      simp [indexOfChar, hac, hi]

theorem lastIndexOfChar_append (c : Char) (u rest : List Char) :
    ∃ j, lastIndexOfChar c (u ++ c :: rest) = some j ∧ u.length ≤ j := by
  induction u with
  | nil =>
    rw [List.nil_append]
    cases hrest : lastIndexOfChar c rest with
    | some i => exact ⟨i + 1, by simp [lastIndexOfChar, hrest], Nat.zero_le _⟩
    | none => exact ⟨0, by simp [lastIndexOfChar, hrest], Nat.le_refl _⟩
  | cons a u ih =>
    obtain ⟨j, hj, hle⟩ := ih
    refine ⟨j + 1, ?_, by simpa using Nat.succ_le_succ hle⟩
    rw [List.cons_append, lastIndexOfChar, hj]

/-- C1: for every response string that contains a brace pair — at least one
opening brace with a closing brace occurring strictly after it —
`cleanJsonString` returns exactly the substring of the fence-stripped text
(`stripFences text`, the `clean` of the source) running from the first opening
brace through the last closing brace inclusive. -/
theorem claim1_cleanJsonString_extracts (text : List Char)
    (h : ∃ u v w, text = u ++ (obr :: (v ++ (cbr :: w)))) :
    ∃ i j, indexOfChar obr (stripFences text) = some i ∧
      lastIndexOfChar cbr (stripFences text) = some j ∧ i < j ∧
      cleanJsonString text = ((stripFences text).drop i).take (j + 1 - i) := by
  obtain ⟨u, v, w, rfl⟩ := h
  have hne : u ++ (obr :: (v ++ (cbr :: w))) ≠ [] := by simp
  have hsub : List.Sublist [obr, cbr] (u ++ (obr :: (v ++ (cbr :: w)))) := by
    have h1 : List.Sublist [cbr] (cbr :: w) :=
      List.Sublist.cons₂ cbr (List.nil_sublist w)
    have h2 : List.Sublist [obr, cbr] (obr :: (v ++ (cbr :: w))) :=
      List.Sublist.cons₂ obr (h1.trans (List.sublist_append_right v (cbr :: w)))
    exact h2.trans (List.sublist_append_right u _)
  have e : [obr, cbr].filter isBrace = [obr, cbr] := by decide
  have hsubf := hsub.filter isBrace
  rw [e] at hsubf
  have hfe : (u ++ (obr :: (v ++ (cbr :: w)))).filter isBrace =
      (stripFences (u ++ (obr :: (v ++ (cbr :: w))))).filter isBrace := by
    rw [stripFences, stripTicks_filter, stripJsonFences_filter]
  rw [hfe] at hsubf
  have hclean := hsubf.trans (List.filter_sublist _)
  obtain ⟨uc, vc, wc, hdecomp⟩ := sublist_pair_decomp _ hclean
  obtain ⟨i, hi, hile⟩ := indexOfChar_append obr uc (vc ++ (cbr :: wc))
  obtain ⟨j, hj, hjge⟩ := lastIndexOfChar_append cbr (uc ++ (obr :: vc)) wc
  rw [← hdecomp] at hi
  have hassoc : (uc ++ (obr :: vc)) ++ (cbr :: wc) = uc ++ (obr :: (vc ++ (cbr :: wc))) := by
    simp
  rw [hassoc, ← hdecomp] at hj
  have hij : i < j := by
    simp only [List.length_append, List.length_cons] at hjge
    omega
  refine ⟨i, j, hi, hj, hij, ?_⟩
  rw [cleanJsonString, if_neg hne, hi, hj]
  simp only [if_pos hij]

theorem claim1_witness : ∃ i j,
    indexOfChar obr (stripFences ['a', obr, 'x', cbr]) = some i ∧
    lastIndexOfChar cbr (stripFences ['a', obr, 'x', cbr]) = some j ∧ i < j ∧
    cleanJsonString ['a', obr, 'x', cbr] =
      ((stripFences ['a', obr, 'x', cbr]).drop i).take (j + 1 - i) :=
  claim1_cleanJsonString_extracts ['a', obr, 'x', cbr] ⟨['a'], ['x'], [], by decide⟩

/-- The three-backtick fence marker. -/
def tick3 : List Char := [btick, btick, btick]

/-- The fence marker with the json language tag. -/
def fenceJson : List Char := [btick, btick, btick, 'j', 's', 'o', 'n']

/-- The mermaid fence prefix checked by `ProductUserFlowDesigner`. -/
def mermaidPat : List Char := [btick, btick, btick, 'm', 'e', 'r', 'm', 'a', 'i', 'd']

/-- Step `clean.replace(/\s*```$/, '')` (geminiService line 249/251): if the text
ends with a fence, remove it together with the maximal whitespace run before
it, else leave the text unchanged. -/
def stripTrailingFence (l : List Char) : List Char :=
  if tick3 <+: l.reverse then (dropWs (l.reverse.drop 3)).reverse else l

/-- The post-processing of `ProductUserFlowDesigner` (geminiService lines
246-253): strip a leading mermaid fence (or a plain fence) with its trailing
whitespace, and then a trailing fence, from the model response. -/
def userFlowClean (t : List Char) : List Char :=
  if mermaidPat <+: t then stripTrailingFence (dropWs (t.drop mermaidPat.length))
  else if tick3 <+: t then stripTrailingFence (dropWs (t.drop tick3.length))
  else t

theorem stripTicks_head_btick (l t : List Char) (h : stripTicks l = btick :: t) :
    ∃ cs, l = btick :: cs := by
  cases l with
  | nil => rw [stripTicks] at h; cases h
  | cons c cs =>
    rw [stripTicks] at h
    split at h
    · rename_i hc
      exact ⟨cs, by rw [hc.1]⟩
    · injection h with h1 h2
      exact ⟨cs, by rw [h1]⟩

theorem stripTicks_head2_btick (l t : List Char)
    (h : stripTicks l = btick :: (btick :: t)) :
    ∃ cs, l = btick :: (btick :: cs) := by
  cases l with
  | nil => rw [stripTicks] at h; cases h
  | cons c cs =>
    rw [stripTicks] at h
    split at h
    · rename_i hc
      obtain ⟨hcb, htake⟩ := hc
      cases cs with
      | nil => simp at htake
      | cons x cs1 =>
        cases cs1 with
        | nil => simp at htake
        | cons y cs2 =>
          simp at htake
          exact ⟨y :: cs2, by rw [hcb, htake.1]⟩
    · injection h with h1 h2
      obtain ⟨cs2, hcs⟩ := stripTicks_head_btick cs t h2
      exact ⟨cs2, by rw [h1, hcs]⟩

theorem stripTicks_no_triple (l : List Char) :
    ¬ tick3 <:+: stripTicks l := by
  induction l using stripTicks.induct with
  | case1 => rw [stripTicks]; simp [tick3, List.infix_nil]
  | case2 c cs h ih => rw [stripTicks, if_pos h]; exact ih
  | case3 c cs h ih =>
    rw [stripTicks, if_neg h]
    intro hinf
    rcases List.infix_cons_iff.mp hinf with hpre | hinf2
    · rw [tick3] at hpre
      rcases List.cons_prefix_cons.mp hpre with ⟨heq, hpre2⟩
      obtain ⟨t, ht⟩ := hpre2
      have ht2 : stripTicks cs = btick :: (btick :: t) := by rw [← ht]; rfl
      obtain ⟨cs2, hcs⟩ := stripTicks_head2_btick cs t ht2
      refine h ⟨heq.symm, ?_⟩
      rw [hcs]
      rfl
    · exact ih hinf2

theorem dropWs_append_ws (w r : List Char) (hw : ∀ c ∈ w, jsWhitespace c = true) :
    dropWs (w ++ r) = dropWs r := by
  induction w with
  | nil => rfl
  | cons c cs ih =>
    rw [List.cons_append, dropWs, if_pos (hw c (by simp))]
    exact ih fun d hd => hw d (by simp [hd])

theorem dropWs_of_head_not_ws (body x : List Char) (hne : body ≠ [])
    (hh : dropWs body = body) : dropWs (body ++ x) = body ++ x := by
  cases body with
  | nil => exact absurd rfl hne
  | cons c cs =>
    have hcws : jsWhitespace c = false := by
      rcases hws : jsWhitespace c with _ | _
      · rfl
      · exfalso
        rw [dropWs, if_pos hws] at hh
        have := dropWs_length_le cs
        have := congrArg List.length hh
        simp at this
        omega
    rw [List.cons_append, dropWs, if_neg (by simp [hcws])]

theorem stripTrailingFence_strips (body w2 : List Char)
    (hw2 : ∀ c ∈ w2, jsWhitespace c = true)
    (hl : dropWs body.reverse = body.reverse) :
    stripTrailingFence (body ++ (w2 ++ tick3)) = body := by
  have hrev : (body ++ (w2 ++ tick3)).reverse =
      tick3 ++ (w2.reverse ++ body.reverse) := by
    simp [tick3]
  rw [stripTrailingFence, hrev, if_pos (List.prefix_append _ _)]
  have hd : (tick3 ++ (w2.reverse ++ body.reverse)).drop 3 =
      w2.reverse ++ body.reverse := List.drop_left tick3 _
  rw [hd, dropWs_append_ws _ _ (fun c hc => hw2 c (List.mem_reverse.mp hc)), hl,
    List.reverse_reverse]

/-- C7: agent post-processing strips markdown fences.  (a) After
`cleanJsonString`'s two fence-removal passes no occurrence of the json fence
marker nor of the plain fence marker remains in the fence-stripped text.
(b) The user-flow agent removes a leading mermaid fence (or plain fence)
together with the whitespace after it, and a trailing fence together with the
whitespace before it, returning the enclosed body. -/
theorem claim7_fence_stripping (text w1 body w2 : List Char)
    (hw1 : ∀ c ∈ w1, jsWhitespace c = true) (hw2 : ∀ c ∈ w2, jsWhitespace c = true)
    (hne : body ≠ []) (hh : dropWs body = body) (hl : dropWs body.reverse = body.reverse)
    (hm : ¬ mermaidPat <+: (tick3 ++ (w1 ++ (body ++ (w2 ++ tick3))))) :
    (¬ fenceJson <:+: stripFences text) ∧ (¬ tick3 <:+: stripFences text) ∧
    userFlowClean (mermaidPat ++ (w1 ++ (body ++ (w2 ++ tick3)))) = body ∧
    userFlowClean (tick3 ++ (w1 ++ (body ++ (w2 ++ tick3)))) = body := by
  have hnot3 : ¬ tick3 <:+: stripFences text := stripTicks_no_triple _
  refine ⟨?_, hnot3, ?_, ?_⟩
  · intro hinf
    have hp : tick3 <+: fenceJson := by decide
    exact hnot3 (hp.isInfix.trans hinf)
  · rw [userFlowClean, if_pos (List.prefix_append _ _), List.drop_left,
      dropWs_append_ws _ _ hw1, dropWs_of_head_not_ws _ _ hne hh]
    exact stripTrailingFence_strips body w2 hw2 hl
  · rw [userFlowClean, if_neg hm, if_pos (List.prefix_append _ _), List.drop_left,
      dropWs_append_ws _ _ hw1, dropWs_of_head_not_ws _ _ hne hh]
    exact stripTrailingFence_strips body w2 hw2 hl

theorem claim7_witness :
    (¬ fenceJson <:+: stripFences ['a', btick, btick, btick, 'b']) ∧
    (¬ tick3 <:+: stripFences ['a', btick, btick, btick, 'b']) ∧
    userFlowClean (mermaidPat ++ ([' '] ++ (['g', 'r', 'a', 'p', 'h'] ++ ([' '] ++ tick3)))) =
      ['g', 'r', 'a', 'p', 'h'] ∧
    userFlowClean (tick3 ++ ([' '] ++ (['g', 'r', 'a', 'p', 'h'] ++ ([' '] ++ tick3)))) =
      ['g', 'r', 'a', 'p', 'h'] :=
  claim7_fence_stripping ['a', btick, btick, btick, 'b'] [' '] ['g', 'r', 'a', 'p', 'h'] [' ']
    (by decide) (by decide) (by decide) (by decide) (by decide) (by decide)

/-- JS `toLowerCase()` restricted to its ASCII action; `toLowerCase` never
produces an uppercase ASCII letter, which is all the classifier depends on. -/
def jsToLower (c : Char) : Char :=
  if 65 ≤ c.toNat ∧ c.toNat ≤ 90 then Char.ofNat (c.toNat + 32) else c

/-- Value `(error?.message || error?.toString() || '').toLowerCase()`: the lowercased
message of the caught error. -/
def lowerStr (l : List Char) : List Char := l.map jsToLower

/-- JS `String.prototype.includes`: contiguous substring containment. -/
def includes (msg needle : List Char) : Bool := decide (needle <:+: msg)

/-- The needles of the first classifier branch (geminiService line 22). -/
def authNeedle (msg : List Char) : Bool :=
  includes msg ['4', '0', '1'] || includes msg ['4', '0', '3'] ||
  includes msg ['a', 'p', 'i', ' ', 'k', 'e', 'y'] ||
  includes msg ['u', 'n', 'a', 'u', 't', 'h', 'e', 'n', 't', 'i', 'c', 'a', 't', 'e', 'd']

/-- The needles of the second classifier branch (geminiService line 26). -/
def quotaNeedle (msg : List Char) : Bool :=
  includes msg ['4', '2', '9'] || includes msg ['q', 'u', 'o', 't', 'a']

/-- The message of `new Error("INVALID_API_KEY")`. -/
def invalidKeyMsg : List Char :=
  ['I', 'N', 'V', 'A', 'L', 'I', 'D', '_', 'A', 'P', 'I', '_', 'K', 'E', 'Y']

/-- The message of `new Error("MISSING_API_KEY")`. -/
def missingKeyMsg : List Char :=
  ['M', 'I', 'S', 'S', 'I', 'N', 'G', '_', 'A', 'P', 'I', '_', 'K', 'E', 'Y']

/-- The message of `new Error("QUOTA_EXCEEDED")`. -/
def quotaMsg : List Char :=
  ['Q', 'U', 'O', 'T', 'A', '_', 'E', 'X', 'C', 'E', 'E', 'D', 'E', 'D']

/-- What `handleApiError` throws. -/
inductive ApiErrorOutcome
  | invalidKey
  | quotaExceeded
  | missingKey
  | rethrow
deriving DecidableEq

/-- Function `handleApiError` (geminiService lines 18-35), as a function of the caught
error's message string `m`: which error it throws, `rethrow` meaning the
original error is rethrown unchanged.  The third branch compares the
lowercased message against the upper-case literal of the source. -/
def handleApiError (m : List Char) : ApiErrorOutcome :=
  if authNeedle (lowerStr m) then .invalidKey
  else if quotaNeedle (lowerStr m) then .quotaExceeded
  else if lowerStr m = missingKeyMsg then .missingKey
  else .rethrow

theorem jsToLower_ne_M (c : Char) : jsToLower c ≠ 'M' := by
  rw [jsToLower]
  split
  · rename_i hr
    intro hEq
    have hv : (Char.ofNat (c.toNat + 32)).toNat = c.toNat + 32 := by
      unfold Char.ofNat
      rw [dif_pos (Or.inl (by omega))]
      rfl
    rw [hEq] at hv
    simp at hv
    omega
  · rename_i hr
    intro hEq
    subst hEq
    exact hr (by decide)

theorem lowerStr_ne_missing (m : List Char) : lowerStr m ≠ missingKeyMsg := by
  intro h
  cases m with
  | nil => cases h
  | cons c cs =>
    rw [lowerStr, List.map_cons, missingKeyMsg] at h
    injection h with h1 h2
    exact jsToLower_ne_M c h1

theorem handleApiError_eq (m : List Char) :
    handleApiError m =
      (if authNeedle (lowerStr m) then ApiErrorOutcome.invalidKey
       else if quotaNeedle (lowerStr m) then ApiErrorOutcome.quotaExceeded
       else ApiErrorOutcome.rethrow) := by
  rw [handleApiError]
  split_ifs with h1 h2 h3
  · rfl
  · rfl
  · exact absurd h3 (lowerStr_ne_missing m)
  · rfl

/-- C4: the API error classifier is a single string-matching pass over the
lowercased error message: auth needles give INVALID_API_KEY, else quota
needles give QUOTA_EXCEEDED, else the original error is rethrown unchanged.
In particular the source's third branch (the comparison of the lowercased
message with the upper-case literal MISSING_API_KEY) never fires. -/
theorem claim4_handleApiError_single_pass (m : List Char) :
    handleApiError m =
      (if authNeedle (lowerStr m) then ApiErrorOutcome.invalidKey
       else if quotaNeedle (lowerStr m) then ApiErrorOutcome.quotaExceeded
       else ApiErrorOutcome.rethrow) ∧
    handleApiError m ≠ ApiErrorOutcome.missingKey := by
  refine ⟨handleApiError_eq m, ?_⟩
  rw [handleApiError_eq m]
  split_ifs <;> simp

/-- The parsed `{score, decision, reasoning}` JSON of `IdeaRadarAgent`,
stored by the component as a `RadarResult` (types.ts lines 16-21);
`rawOutput` is declared there but never populated at runtime. -/
inductive RadarDecision
  | PROCEED
  | KILL
deriving DecidableEq

structure RadarResult where
  score : Int
  reasoning : List Char
  decision : RadarDecision
  rawOutput : Option (List Char)
deriving DecidableEq

inductive QADecision
  | ITERATE
  | PIVOT
  | KILL
deriving DecidableEq

/-- Structure `QAResult` (types.ts lines 50-53). -/
structure QAResult where
  decision : QADecision
  analysis : List Char
deriving DecidableEq

/-- What an agent's catch block produces: a (re)thrown error, identified by
its message, or a fallback return value. -/
inductive CatchResult (α : Type)
  | thrown (msg : List Char)
  | fallback (v : α)
deriving DecidableEq

/-- The fallback of `IdeaRadarAgent` (geminiService lines 169-173). -/
def radarFallback : RadarResult :=
  ⟨0, ("Analysis failed due to model response error. Please try again.").toList,
    RadarDecision.KILL, none⟩

/-- The fallback of `DecisionGateAgent` (geminiService lines 418-421). -/
def gateFallback : QAResult :=
  ⟨QADecision.ITERATE, ("Error analyzing metrics. Suggesting iteration by default.").toList⟩

/-- The catch block of `IdeaRadarAgent` (geminiService lines 160-175) as a
function of the caught error's message `m` (the caught error may be any
failure of the try block, including a JSON parse failure of the model
response): `handleApiError` is run on the error, and whatever it throws is
rethrown when its message is one of the three known error messages, else the
fallback value is returned. -/
def radarCatch (m : List Char) : CatchResult RadarResult :=
  match handleApiError m with
  | .invalidKey => .thrown invalidKeyMsg
  | .quotaExceeded => .thrown quotaMsg
  | .missingKey => .thrown missingKeyMsg
  | .rethrow =>
    if m = invalidKeyMsg ∨ m = missingKeyMsg ∨ m = quotaMsg then .thrown m
    else .fallback radarFallback

/-- The catch block of `DecisionGateAgent` (geminiService lines 410-423). -/
def gateCatch (m : List Char) : CatchResult QAResult :=
  match handleApiError m with
  | .invalidKey => .thrown invalidKeyMsg
  | .quotaExceeded => .thrown quotaMsg
  | .missingKey => .thrown missingKeyMsg
  | .rethrow =>
    if m = invalidKeyMsg ∨ m = missingKeyMsg ∨ m = quotaMsg then .thrown m
    else .fallback gateFallback

/-- True unless the value is a thrown error other than the three known ones. -/
def onlyKnownThrown {α : Type} : CatchResult α → Bool
  | .thrown t => decide (t = invalidKeyMsg ∨ t = missingKeyMsg ∨ t = quotaMsg)
  | .fallback _ => true

theorem radarCatch_eq (m : List Char) :
    radarCatch m =
      (if authNeedle (lowerStr m) then CatchResult.thrown invalidKeyMsg
       else if quotaNeedle (lowerStr m) then CatchResult.thrown quotaMsg
       else if m = invalidKeyMsg ∨ m = missingKeyMsg ∨ m = quotaMsg then CatchResult.thrown m
       else CatchResult.fallback radarFallback) := by
  rw [radarCatch, handleApiError_eq]
  split_ifs <;> rfl

theorem gateCatch_eq (m : List Char) :
    gateCatch m =
      (if authNeedle (lowerStr m) then CatchResult.thrown invalidKeyMsg
       else if quotaNeedle (lowerStr m) then CatchResult.thrown quotaMsg
       else if m = invalidKeyMsg ∨ m = missingKeyMsg ∨ m = quotaMsg then CatchResult.thrown m
       else CatchResult.fallback gateFallback) := by
  rw [gateCatch, handleApiError_eq]
  split_ifs <;> rfl

/-!
The component state machine (Typewriter.tsx `App`).  Each async stage handler
performs a pre-update (`currentStage` advance, status THINKING) before its
awaited call and a post-update after it; we model a handler invocation as one
atomic action carrying the outcome of the call, whose net effect on the stored
state is the composition of the two `setState` calls.  An action applies only
when the UI makes its control available (conditional rendering, `disabled`
attributes, the `pointer-events-none` overlay on the stage-0 form); otherwise
it leaves the state unchanged.  The `isResearching` / `loading*` spinner
flags, which only gate concurrent clicks, are not modelled; ignoring them
only adds behaviours, which is sound for the invariants proved below.
-/

/-- Enum `AgentStatus` (types.ts lines 1-7). -/
inductive AgentStatus
  | IDLE
  | THINKING
  | COMPLETED
  | FAILED
  | SKIPPED
deriving DecidableEq

/-- Structure `IdeaInput` (types.ts lines 9-14). -/
structure IdeaInput where
  name : List Char
  targetUser : List Char
  painPoint : List Char
  description : List Char
deriving DecidableEq

/-- Structure `ProductResult` (types.ts lines 23-29); the optional fields are absent
(`none`) until the corresponding product action fills them. -/
structure ProductResult where
  prd : List Char
  features : List (List Char)
  optimizations : Option (List Char)
  userFlow : Option (List Char)
  techSpec : Option (List Char)
deriving DecidableEq

/-- Structure `TechResult` (types.ts lines 31-36). -/
structure TechResult where
  stack : List Char
  schema : List Char
  apiSpec : List Char
  fullOutput : List Char
deriving DecidableEq

/-- Structure `DevResult` (types.ts lines 38-41). -/
structure DevResult where
  codeStructure : List Char
  instructions : List Char
deriving DecidableEq

/-- Structure `QAMetrics` (types.ts lines 43-48); `users` is a JS number fed from
`parseInt`, modelled as an integer. -/
structure QAMetrics where
  users : Int
  retention : List Char
  revenue : List Char
  feedback : List Char
deriving DecidableEq

structure RadarSlot where
  status : AgentStatus
  result : Option RadarResult
deriving DecidableEq

structure ProductSlot where
  status : AgentStatus
  result : Option ProductResult
deriving DecidableEq

structure TechSlot where
  status : AgentStatus
  result : Option TechResult
deriving DecidableEq

structure DevSlot where
  status : AgentStatus
  result : Option DevResult
deriving DecidableEq

structure QASlot where
  status : AgentStatus
  metrics : QAMetrics
  result : Option QAResult
deriving DecidableEq

/-- Structure `FactoryState` (types.ts lines 55-63).  `currentStage` only ever receives
the literals 0..5, so it is modelled as a natural number. -/
structure FactoryState where
  currentStage : Nat
  idea : IdeaInput
  radar : RadarSlot
  product : ProductSlot
  tech : TechSlot
  dev : DevSlot
  qa : QASlot
deriving DecidableEq

/-- Constant `INITIAL_STATE` (types.ts lines 65-73). -/
def INITIAL_STATE : FactoryState where
  currentStage := 0
  idea := ⟨[], [], [], []⟩
  radar := ⟨AgentStatus.IDLE, none⟩
  product := ⟨AgentStatus.IDLE, none⟩
  tech := ⟨AgentStatus.IDLE, none⟩
  dev := ⟨AgentStatus.IDLE, none⟩
  qa := ⟨AgentStatus.IDLE, ⟨0, [], [], []⟩, none⟩

inductive BannerType
  | MISSING
  | INVALID
  | QUOTA
deriving DecidableEq

/-- The `apiKeyError` banner value (App line 116). -/
structure Banner where
  type : BannerType
  message : List Char
deriving DecidableEq

/-- The component-level `handleApiError` (App lines 143-163): set the banner
for the three known error messages; any other error only triggers an alert,
leaving the banner unchanged. -/
def applyBanner (m : List Char) (b : Option Banner) : Option Banner :=
  if m = invalidKeyMsg then
    some ⟨BannerType.INVALID, ("The provided API Key is invalid or expired.").toList⟩
  else if m = quotaMsg then
    some ⟨BannerType.QUOTA, ("You have exceeded your API quota.").toList⟩
  else if m = missingKeyMsg then
    some ⟨BannerType.MISSING, ("The API_KEY environment variable is not set.").toList⟩
  else b

/-- The component state: the factory object plus the apiKeyError banner. -/
structure AppState where
  factory : FactoryState
  apiKeyError : Option Banner
deriving DecidableEq

/-- The state at app start. -/
def initialApp : AppState := ⟨INITIAL_STATE, none⟩

/-- Outcome of an awaited service call: the value the handler receives, or
the message of the error its catch block receives. -/
inductive CallOutcome (α : Type)
  | ok (v : α)
  | err (msg : List Char)

/-- Does the stored radar result say PROCEED (render condition of the
Generate-PRD button, App line 570)? -/
def radarProceed (s : FactoryState) : Bool :=
  match s.radar.result with
  | some r => r.decision == RadarDecision.PROCEED
  | none => false

/-- JS truthiness of an optional string (absent and empty are falsy). -/
def optTruthy : Option (List Char) → Bool
  | none => false
  | some l => decide (l ≠ [])

/-- Guard of `handleIdeaSubmit`: stage-0 form interactive, nonempty name and
target user (App lines 185, 468, 534). -/
def canSubmitIdea (s : FactoryState) : Prop :=
  s.currentStage = 0 ∧ s.idea.name ≠ [] ∧ s.idea.targetUser ≠ []

/-- Guard of `handleProceedToProduct` (App lines 570-577). -/
def canProceedToProduct (s : FactoryState) : Prop :=
  s.currentStage = 1 ∧ radarProceed s = true

/-- Guard of `handleProceedToTech` (App lines 606, 658-665). -/
def canProceedToTech (s : FactoryState) : Prop :=
  s.currentStage = 2 ∧ s.product.result.isSome = true

/-- Guard of `handleProceedToDev` (App lines 684, 693-700). -/
def canProceedToDev (s : FactoryState) : Prop :=
  s.currentStage = 3 ∧ s.tech.result.isSome = true

/-- Guard of the Simulate-Launch button (App lines 719, 726-734). -/
def canSimulateLaunch (s : FactoryState) : Prop :=
  s.currentStage = 4 ∧ s.dev.result.isSome = true

/-- Guard of `handleEvaluateMetrics`: the Analyze button is rendered in the
stage-5 block only while the qa status is IDLE or COMPLETED (App lines
743, 785-791). -/
def canEvaluateMetrics (s : FactoryState) : Prop :=
  5 ≤ s.currentStage ∧ (s.qa.status = AgentStatus.IDLE ∨ s.qa.status = AgentStatus.COMPLETED)

instance (s : FactoryState) : Decidable (canSubmitIdea s) := by
  unfold canSubmitIdea; infer_instance

instance (s : FactoryState) : Decidable (canProceedToProduct s) := by
  unfold canProceedToProduct; infer_instance

instance (s : FactoryState) : Decidable (canProceedToTech s) := by
  unfold canProceedToTech; infer_instance

instance (s : FactoryState) : Decidable (canProceedToDev s) := by
  unfold canProceedToDev; infer_instance

instance (s : FactoryState) : Decidable (canSimulateLaunch s) := by
  unfold canSimulateLaunch; infer_instance

instance (s : FactoryState) : Decidable (canEvaluateMetrics s) := by
  unfold canEvaluateMetrics; infer_instance

/-- Guard of the three product extras buttons (App lines 595-637) plus the
handlers' own nonempty-prd checks (lines 233, 252, 271); `field` selects the
optional result field whose truthiness disables the button. -/
def canProductExtra (s : FactoryState) (field : ProductResult → Option (List Char)) : Prop :=
  2 ≤ s.currentStage ∧
    (match s.product.result with
     | some pr => pr.prd ≠ [] ∧ optTruthy (field pr) = false
     | none => False)

instance (s : FactoryState) (field : ProductResult → Option (List Char)) :
    Decidable (canProductExtra s field) := by
  unfold canProductExtra
  exact match s.product.result with
  | some _ => inferInstanceAs (Decidable (_ ∧ _ ∧ _))
  | none => inferInstanceAs (Decidable (_ ∧ False))

/-- The user actions of the App component. -/
inductive AppAction
  | autoResearch (o : CallOutcome IdeaInput)
  | editIdeaName (v : List Char)
  | editIdeaTargetUser (v : List Char)
  | editIdeaPainPoint (v : List Char)
  | editIdeaDescription (v : List Char)
  | ideaSubmit (o : CallOutcome RadarResult)
  | proceedToProduct (o : CallOutcome (Option (List Char)))
  | optimizeProduct (o : CallOutcome (Option (List Char)))
  | generateUserFlow (o : CallOutcome (List Char))
  | generateTechSpec (o : CallOutcome (Option (List Char)))
  | proceedToTech (o : CallOutcome (Option (List Char)))
  | proceedToDev (o : CallOutcome (Option (List Char)))
  | simulateLaunch
  | editMetricsUsers (n : Int)
  | editMetricsRetention (v : List Char)
  | editMetricsRevenue (v : List Char)
  | editMetricsFeedback (v : List Char)
  | evaluateMetrics (o : CallOutcome QAResult)
  | restart (confirmed : Bool)

/-- One user action applied to the component state (App lines 166-367 and the
render guards cited in the `can*` definitions).  For an async handler the
`ok` branch composes the pre-update (`currentStage` advance, status THINKING)
with the success update, the `err` branch composes it with the catch update
(status FAILED, `handleApiError` on the banner). -/
def step (s : AppState) (a : AppAction) : AppState :=
  match a with
  | .autoResearch o =>
    if s.factory.currentStage = 0 then
      match o with
      | .ok idea => { s with factory := { s.factory with idea := idea } }
      | .err m => { s with apiKeyError := applyBanner m s.apiKeyError }
    else s
  | .editIdeaName v =>
    if s.factory.currentStage = 0 then
      { s with factory := { s.factory with idea := { s.factory.idea with name := v } } }
    else s
  | .editIdeaTargetUser v =>
    if s.factory.currentStage = 0 then
      { s with factory := { s.factory with idea := { s.factory.idea with targetUser := v } } }
    else s
  | .editIdeaPainPoint v =>
    if s.factory.currentStage = 0 then
      { s with factory := { s.factory with idea := { s.factory.idea with painPoint := v } } }
    else s
  | .editIdeaDescription v =>
    if s.factory.currentStage = 0 then
      { s with factory := { s.factory with idea := { s.factory.idea with description := v } } }
    else s
  | .ideaSubmit o =>
    if canSubmitIdea s.factory then
      match o with
      | .ok r =>
        { s with factory := { s.factory with
            currentStage := 1
            radar := ⟨AgentStatus.COMPLETED, some r⟩ } }
      | .err m =>
        { s with
          factory := { s.factory with
            currentStage := 1
            radar := { s.factory.radar with status := AgentStatus.FAILED } }
          apiKeyError := applyBanner m s.apiKeyError }
    else s
  | .proceedToProduct o =>
    if canProceedToProduct s.factory then
      match o with
      | .ok t =>
        { s with factory := { s.factory with
            currentStage := 2
            product := ⟨AgentStatus.COMPLETED, some ⟨t.getD [], [], none, none, none⟩⟩ } }
      | .err m =>
        { s with
          factory := { s.factory with
            currentStage := 2
            product := { s.factory.product with status := AgentStatus.FAILED } }
          apiKeyError := applyBanner m s.apiKeyError }
    else s
  | .optimizeProduct o =>
    if canProductExtra s.factory ProductResult.optimizations then
      match o with
      | .ok t =>
        match s.factory.product.result with
        | some pr =>
          { s with factory := { s.factory with
              product := { s.factory.product with result := some { pr with optimizations := t } } } }
        | none => s
      | .err m => { s with apiKeyError := applyBanner m s.apiKeyError }
    else s
  | .generateUserFlow o =>
    if canProductExtra s.factory ProductResult.userFlow then
      match o with
      | .ok t =>
        match s.factory.product.result with
        | some pr =>
          { s with factory := { s.factory with
              product := { s.factory.product with result := some { pr with userFlow := some t } } } }
        | none => s
      | .err m => { s with apiKeyError := applyBanner m s.apiKeyError }
    else s
  | .generateTechSpec o =>
    if canProductExtra s.factory ProductResult.techSpec then
      match o with
      | .ok t =>
        match s.factory.product.result with
        | some pr =>
          { s with factory := { s.factory with
              product := { s.factory.product with result := some { pr with techSpec := t } } } }
        | none => s
      | .err m => { s with apiKeyError := applyBanner m s.apiKeyError }
    else s
  | .proceedToTech o =>
    if canProceedToTech s.factory then
      match o with
      | .ok t =>
        { s with factory := { s.factory with
            currentStage := 3
            tech := ⟨AgentStatus.COMPLETED, some ⟨("Toh Framework").toList, [], [], t.getD []⟩⟩ } }
      | .err m =>
        { s with
          factory := { s.factory with
            currentStage := 3
            tech := { s.factory.tech with status := AgentStatus.FAILED } }
          apiKeyError := applyBanner m s.apiKeyError }
    else s
  | .proceedToDev o =>
    if canProceedToDev s.factory then
      match o with
      | .ok t =>
        { s with factory := { s.factory with
            currentStage := 4
            dev := ⟨AgentStatus.COMPLETED, some ⟨t.getD [], []⟩⟩ } }
      | .err m =>
        { s with
          factory := { s.factory with
            currentStage := 4
            dev := { s.factory.dev with status := AgentStatus.FAILED } }
          apiKeyError := applyBanner m s.apiKeyError }
    else s
  | .simulateLaunch =>
    if canSimulateLaunch s.factory then
      { s with factory := { s.factory with currentStage := 5 } }
    else s
  | .editMetricsUsers n =>
    if 5 ≤ s.factory.currentStage then
      { s with factory := { s.factory with
          qa := { s.factory.qa with metrics := { s.factory.qa.metrics with users := n } } } }
    else s
  | .editMetricsRetention v =>
    if 5 ≤ s.factory.currentStage then
      { s with factory := { s.factory with
          qa := { s.factory.qa with metrics := { s.factory.qa.metrics with retention := v } } } }
    else s
  | .editMetricsRevenue v =>
    if 5 ≤ s.factory.currentStage then
      { s with factory := { s.factory with
          qa := { s.factory.qa with metrics := { s.factory.qa.metrics with revenue := v } } } }
    else s
  | .editMetricsFeedback v =>
    if 5 ≤ s.factory.currentStage then
      { s with factory := { s.factory with
          qa := { s.factory.qa with metrics := { s.factory.qa.metrics with feedback := v } } } }
    else s
  | .evaluateMetrics o =>
    if canEvaluateMetrics s.factory then
      match o with
      | .ok r =>
        { s with factory := { s.factory with
            qa := { s.factory.qa with
              status := AgentStatus.COMPLETED
              result := some r } } }
      | .err m =>
        { s with
          factory := { s.factory with
            qa := { s.factory.qa with status := AgentStatus.FAILED } }
          apiKeyError := applyBanner m s.apiKeyError }
    else s
  | .restart confirmed =>
    if confirmed then initialApp else s

/-- The states reachable from app start by user actions. -/
inductive Reachable : AppState → Prop
  | init : Reachable initialApp
  | next {s : AppState} (h : Reachable s) (a : AppAction) : Reachable (step s a)

/-- C8: `IdeaRadarAgent` and `DecisionGateAgent` propagate only the three
known errors (INVALID_API_KEY, MISSING_API_KEY, QUOTA_EXCEEDED); a failure
that is not classified as one of those (in particular any JSON parse failure
whose message carries none of the classifier's needles) is not thrown: the
radar agent returns score 0 with decision KILL and the decision gate returns
decision ITERATE. -/
theorem claim8_agents_propagate_only_known_errors (m : List Char) :
    onlyKnownThrown (radarCatch m) = true ∧ onlyKnownThrown (gateCatch m) = true ∧
    radarCatch m =
      (if authNeedle (lowerStr m) then CatchResult.thrown invalidKeyMsg
       else if quotaNeedle (lowerStr m) then CatchResult.thrown quotaMsg
       else if m = invalidKeyMsg ∨ m = missingKeyMsg ∨ m = quotaMsg then CatchResult.thrown m
       else CatchResult.fallback radarFallback) ∧
    gateCatch m =
      (if authNeedle (lowerStr m) then CatchResult.thrown invalidKeyMsg
       else if quotaNeedle (lowerStr m) then CatchResult.thrown quotaMsg
       else if m = invalidKeyMsg ∨ m = missingKeyMsg ∨ m = quotaMsg then CatchResult.thrown m
       else CatchResult.fallback gateFallback) ∧
    (radarFallback.score = 0 ∧ radarFallback.decision = RadarDecision.KILL) ∧
    gateFallback.decision = QADecision.ITERATE := by
  refine ⟨?_, ?_, radarCatch_eq m, gateCatch_eq m, ⟨rfl, rfl⟩, rfl⟩
  · rw [radarCatch_eq m]
    split_ifs with h1 h2 h3
    · decide
    · decide
    · simpa [onlyKnownThrown] using h3
    · rfl
  · rw [gateCatch_eq m]
    split_ifs with h1 h2 h3
    · decide
    · decide
    · simpa [onlyKnownThrown] using h3
    · rfl

/-- C6: a confirmed restart resets the factory state exactly to the initial
state — currentStage 0, all idea fields empty, every stage status IDLE with a
null result, zeroed QA metrics — regardless of the prior state, and clears
the API-key error banner. -/
theorem claim6_restart_resets (s : AppState) :
    step s (AppAction.restart true) = initialApp ∧
    initialApp.factory = INITIAL_STATE ∧
    INITIAL_STATE.currentStage = 0 ∧
    INITIAL_STATE.idea = ⟨[], [], [], []⟩ ∧
    INITIAL_STATE.radar = ⟨AgentStatus.IDLE, none⟩ ∧
    INITIAL_STATE.product = ⟨AgentStatus.IDLE, none⟩ ∧
    INITIAL_STATE.tech = ⟨AgentStatus.IDLE, none⟩ ∧
    INITIAL_STATE.dev = ⟨AgentStatus.IDLE, none⟩ ∧
    INITIAL_STATE.qa = ⟨AgentStatus.IDLE, ⟨0, [], [], []⟩, none⟩ ∧
    initialApp.apiKeyError = none :=
  ⟨rfl, rfl, rfl, rfl, rfl, rfl, rfl, rfl, rfl, rfl⟩

/-- A radar result with decision PROCEED, for concrete test states. -/
def radarOk : RadarResult := ⟨80, [], RadarDecision.PROCEED, none⟩

/-- The app state after typing a name and a target user at stage 0. -/
def s0pre : AppState :=
  step (step initialApp (AppAction.editIdeaName ['a'])) (AppAction.editIdeaTargetUser ['b'])

/-- A reachable state at stage 1 holding a PROCEED radar result. -/
def sReach1 : AppState := step s0pre (AppAction.ideaSubmit (CallOutcome.ok radarOk))

/-- C2 (counterexample): the claim "currentStage is advanced only after the
stage's network call succeeds; if the call fails, currentStage is not
advanced" is false: from the reachable stage-0 state `s0pre`, a
`handleIdeaSubmit` whose network call fails leaves the radar status FAILED
yet currentStage advanced to 1. -/
theorem claim2_counterexample :
    Reachable s0pre ∧ s0pre.factory.currentStage = 0 ∧
    (step s0pre (AppAction.ideaSubmit (CallOutcome.err quotaMsg))).factory.radar.status =
      AgentStatus.FAILED ∧
    (step s0pre (AppAction.ideaSubmit (CallOutcome.err quotaMsg))).factory.currentStage = 1 :=
  ⟨Reachable.next (Reachable.next Reachable.init (AppAction.editIdeaName ['a']))
      (AppAction.editIdeaTargetUser ['b']),
    rfl, rfl, rfl⟩

/-- C2 (amended): each stage handler advances the stage counter in its
pre-update, before the network call resolves, so after the handler runs at
its own stage currentStage equals the next stage number whatever the
outcome; when the call fails the stage status becomes FAILED with the
counter still advanced. -/
theorem claim2_amended_stage_advances_regardless (s : AppState)
    (o1 : CallOutcome RadarResult) (o2 o3 o4 : CallOutcome (Option (List Char)))
    (m : List Char) :
    (canSubmitIdea s.factory →
      (step s (AppAction.ideaSubmit o1)).factory.currentStage = 1 ∧
      (step s (AppAction.ideaSubmit (CallOutcome.err m))).factory.currentStage = 1 ∧
      (step s (AppAction.ideaSubmit (CallOutcome.err m))).factory.radar.status =
        AgentStatus.FAILED) ∧
    (canProceedToProduct s.factory →
      (step s (AppAction.proceedToProduct o2)).factory.currentStage = 2 ∧
      (step s (AppAction.proceedToProduct (CallOutcome.err m))).factory.currentStage = 2 ∧
      (step s (AppAction.proceedToProduct (CallOutcome.err m))).factory.product.status =
        AgentStatus.FAILED) ∧
    (canProceedToTech s.factory →
      (step s (AppAction.proceedToTech o3)).factory.currentStage = 3 ∧
      (step s (AppAction.proceedToTech (CallOutcome.err m))).factory.currentStage = 3 ∧
      (step s (AppAction.proceedToTech (CallOutcome.err m))).factory.tech.status =
        AgentStatus.FAILED) ∧
    (canProceedToDev s.factory →
      (step s (AppAction.proceedToDev o4)).factory.currentStage = 4 ∧
      (step s (AppAction.proceedToDev (CallOutcome.err m))).factory.currentStage = 4 ∧
      (step s (AppAction.proceedToDev (CallOutcome.err m))).factory.dev.status =
        AgentStatus.FAILED) := by
  refine ⟨fun h => ?_, fun h => ?_, fun h => ?_, fun h => ?_⟩
  · cases o1 <;> simp [step, h]
  · cases o2 <;> simp [step, h]
  · cases o3 <;> simp [step, h]
  · cases o4 <;> simp [step, h]

/-- A state at stage 2 with a product result, for witnesses. -/
def sAt2 : AppState :=
  ⟨{ INITIAL_STATE with
      currentStage := 2
      product := ⟨AgentStatus.COMPLETED, some ⟨['p'], [], none, none, none⟩⟩ }, none⟩

/-- A state at stage 3 with a tech result, for witnesses. -/
def sAt3 : AppState :=
  ⟨{ INITIAL_STATE with
      currentStage := 3
      tech := ⟨AgentStatus.COMPLETED, some ⟨[], [], [], ['t']⟩⟩ }, none⟩

theorem claim2_amended_witness :
    ((step s0pre (AppAction.ideaSubmit (CallOutcome.err quotaMsg))).factory.currentStage = 1 ∧
     (step s0pre (AppAction.ideaSubmit (CallOutcome.err quotaMsg))).factory.radar.status =
       AgentStatus.FAILED) ∧
    ((step sReach1 (AppAction.proceedToProduct (CallOutcome.err quotaMsg))).factory.currentStage
        = 2 ∧
     (step sReach1 (AppAction.proceedToProduct (CallOutcome.err quotaMsg))).factory.product.status
        = AgentStatus.FAILED) ∧
    ((step sAt2 (AppAction.proceedToTech (CallOutcome.err quotaMsg))).factory.currentStage = 3 ∧
     (step sAt2 (AppAction.proceedToTech (CallOutcome.err quotaMsg))).factory.tech.status =
       AgentStatus.FAILED) ∧
    ((step sAt3 (AppAction.proceedToDev (CallOutcome.err quotaMsg))).factory.currentStage = 4 ∧
     (step sAt3 (AppAction.proceedToDev (CallOutcome.err quotaMsg))).factory.dev.status =
       AgentStatus.FAILED) := by
  refine ⟨?_, ?_, ?_, ?_⟩
  · have h := (claim2_amended_stage_advances_regardless s0pre (CallOutcome.err quotaMsg)
      (CallOutcome.err quotaMsg) (CallOutcome.err quotaMsg) (CallOutcome.err quotaMsg)
      quotaMsg).1 (by decide)
    exact ⟨h.2.1, h.2.2⟩
  · have h := (claim2_amended_stage_advances_regardless sReach1 (CallOutcome.err quotaMsg)
      (CallOutcome.err quotaMsg) (CallOutcome.err quotaMsg) (CallOutcome.err quotaMsg)
      quotaMsg).2.1 (by decide)
    exact ⟨h.2.1, h.2.2⟩
  · have h := (claim2_amended_stage_advances_regardless sAt2 (CallOutcome.err quotaMsg)
      (CallOutcome.err quotaMsg) (CallOutcome.err quotaMsg) (CallOutcome.err quotaMsg)
      quotaMsg).2.2.1 (by decide)
    exact ⟨h.2.1, h.2.2⟩
  · have h := (claim2_amended_stage_advances_regardless sAt3 (CallOutcome.err quotaMsg)
      (CallOutcome.err quotaMsg) (CallOutcome.err quotaMsg) (CallOutcome.err quotaMsg)
      quotaMsg).2.2.2 (by decide)
    exact ⟨h.2.1, h.2.2⟩

/-- C9: each stage handler updates at most `currentStage` and the slot of its
own stage: the idea fields, the QA metrics, and the statuses and results of
all other stages are left unchanged by that handler, on success and on
failure alike (the qa handler moreover leaves `currentStage` and its own
metrics unchanged). -/
theorem claim9_handlers_frame (s : AppState) (o1 : CallOutcome RadarResult)
    (o2 o3 o4 : CallOutcome (Option (List Char))) (o5 : CallOutcome QAResult) :
    ((step s (AppAction.ideaSubmit o1)).factory.idea = s.factory.idea ∧
     (step s (AppAction.ideaSubmit o1)).factory.product = s.factory.product ∧
     (step s (AppAction.ideaSubmit o1)).factory.tech = s.factory.tech ∧
     (step s (AppAction.ideaSubmit o1)).factory.dev = s.factory.dev ∧
     (step s (AppAction.ideaSubmit o1)).factory.qa = s.factory.qa) ∧
    ((step s (AppAction.proceedToProduct o2)).factory.idea = s.factory.idea ∧
     (step s (AppAction.proceedToProduct o2)).factory.radar = s.factory.radar ∧
     (step s (AppAction.proceedToProduct o2)).factory.tech = s.factory.tech ∧
     (step s (AppAction.proceedToProduct o2)).factory.dev = s.factory.dev ∧
     (step s (AppAction.proceedToProduct o2)).factory.qa = s.factory.qa) ∧
    ((step s (AppAction.proceedToTech o3)).factory.idea = s.factory.idea ∧
     (step s (AppAction.proceedToTech o3)).factory.radar = s.factory.radar ∧
     (step s (AppAction.proceedToTech o3)).factory.product = s.factory.product ∧
     (step s (AppAction.proceedToTech o3)).factory.dev = s.factory.dev ∧
     (step s (AppAction.proceedToTech o3)).factory.qa = s.factory.qa) ∧
    ((step s (AppAction.proceedToDev o4)).factory.idea = s.factory.idea ∧
     (step s (AppAction.proceedToDev o4)).factory.radar = s.factory.radar ∧
     (step s (AppAction.proceedToDev o4)).factory.product = s.factory.product ∧
     (step s (AppAction.proceedToDev o4)).factory.tech = s.factory.tech ∧
     (step s (AppAction.proceedToDev o4)).factory.qa = s.factory.qa) ∧
    ((step s (AppAction.evaluateMetrics o5)).factory.currentStage = s.factory.currentStage ∧
     (step s (AppAction.evaluateMetrics o5)).factory.idea = s.factory.idea ∧
     (step s (AppAction.evaluateMetrics o5)).factory.radar = s.factory.radar ∧
     (step s (AppAction.evaluateMetrics o5)).factory.product = s.factory.product ∧
     (step s (AppAction.evaluateMetrics o5)).factory.tech = s.factory.tech ∧
     (step s (AppAction.evaluateMetrics o5)).factory.dev = s.factory.dev ∧
     (step s (AppAction.evaluateMetrics o5)).factory.qa.metrics = s.factory.qa.metrics) := by
  refine ⟨?_, ?_, ?_, ?_, ?_⟩
  · by_cases hg : canSubmitIdea s.factory <;> cases o1 <;> simp [step, hg]
  · by_cases hg : canProceedToProduct s.factory <;> cases o2 <;> simp [step, hg]
  · by_cases hg : canProceedToTech s.factory <;> cases o3 <;> simp [step, hg]
  · by_cases hg : canProceedToDev s.factory <;> cases o4 <;> simp [step, hg]
  · by_cases hg : canEvaluateMetrics s.factory <;> cases o5 <;> simp [step, hg]

/-- Sidebar activity of the Idea Radar section (App line 423). -/
def radarActive (s : FactoryState) : Bool := decide (s.currentStage = 1)

/-- Sidebar activity of the Product Designer section (App line 430). -/
def productActive (s : FactoryState) : Bool := decide (s.currentStage = 2)

/-- Sidebar activity of the Tech Lead section (App line 437). -/
def techActive (s : FactoryState) : Bool := decide (s.currentStage = 3)

/-- Sidebar activity of the Dev Agent section (App line 444). -/
def devActive (s : FactoryState) : Bool := decide (s.currentStage = 4)

/-- Sidebar activity of the Decision Gate section (App line 451). -/
def qaActive (s : FactoryState) : Bool := decide (5 ≤ s.currentStage)

/-- How many of the five sidebar stages render as active. -/
def numActive (s : FactoryState) : Nat :=
  (if radarActive s then 1 else 0) + (if productActive s then 1 else 0) +
  (if techActive s then 1 else 0) + (if devActive s then 1 else 0) +
  (if qaActive s then 1 else 0)

/-- C3 (counterexample): the initial state is reachable, its currentStage is
0, and there no stage at all is active — refuting "exactly one of the five
stages is active in every reachable state including the initial state". -/
theorem claim3_counterexample :
    Reachable initialApp ∧ initialApp.factory.currentStage = 0 ∧
    numActive initialApp.factory = 0 :=
  ⟨Reachable.init, rfl, rfl⟩

/-- C3 (amended): in every reachable state at most one of the five stages is
active — the one selected by currentStage — and exactly one is active
whenever currentStage is at least 1; at currentStage 0 (the initial state)
none is. -/
theorem claim3_amended_at_most_one_active (s : AppState) (h : Reachable s) :
    numActive s.factory ≤ 1 ∧
    (1 ≤ s.factory.currentStage → numActive s.factory = 1) ∧
    (radarActive s.factory = true ↔ s.factory.currentStage = 1) ∧
    (productActive s.factory = true ↔ s.factory.currentStage = 2) ∧
    (techActive s.factory = true ↔ s.factory.currentStage = 3) ∧
    (devActive s.factory = true ↔ s.factory.currentStage = 4) ∧
    (qaActive s.factory = true ↔ 5 ≤ s.factory.currentStage) := by
  refine ⟨?_, ?_, by simp [radarActive], by simp [productActive], by simp [techActive],
    by simp [devActive], by simp [qaActive]⟩
  · simp only [numActive, radarActive, productActive, techActive, devActive, qaActive,
      decide_eq_true_eq]
    split_ifs <;> omega
  · intro h1
    simp only [numActive, radarActive, productActive, techActive, devActive, qaActive,
      decide_eq_true_eq]
    split_ifs <;> omega

theorem claim3_amended_witness :
    numActive sReach1.factory ≤ 1 ∧
    (1 ≤ sReach1.factory.currentStage → numActive sReach1.factory = 1) ∧
    (radarActive sReach1.factory = true ↔ sReach1.factory.currentStage = 1) ∧
    (productActive sReach1.factory = true ↔ sReach1.factory.currentStage = 2) ∧
    (techActive sReach1.factory = true ↔ sReach1.factory.currentStage = 3) ∧
    (devActive sReach1.factory = true ↔ sReach1.factory.currentStage = 4) ∧
    (qaActive sReach1.factory = true ↔ 5 ≤ sReach1.factory.currentStage) :=
  claim3_amended_at_most_one_active sReach1
    (Reachable.next
      (Reachable.next (Reachable.next Reachable.init (AppAction.editIdeaName ['a']))
        (AppAction.editIdeaTargetUser ['b']))
      (AppAction.ideaSubmit (CallOutcome.ok radarOk)))

theorem step_stage_le (s : AppState) (a : AppAction) (h : s.factory.currentStage ≤ 5) :
    (step s a).factory.currentStage ≤ 5 := by
  cases a with
  | autoResearch o =>
    by_cases hg : s.factory.currentStage = 0 <;> cases o <;> simp [step, hg, h]
  | editIdeaName v => by_cases hg : s.factory.currentStage = 0 <;> simp [step, hg, h]
  | editIdeaTargetUser v => by_cases hg : s.factory.currentStage = 0 <;> simp [step, hg, h]
  | editIdeaPainPoint v => by_cases hg : s.factory.currentStage = 0 <;> simp [step, hg, h]
  | editIdeaDescription v => by_cases hg : s.factory.currentStage = 0 <;> simp [step, hg, h]
  | ideaSubmit o => by_cases hg : canSubmitIdea s.factory <;> cases o <;> simp [step, hg, h]
  | proceedToProduct o =>
    by_cases hg : canProceedToProduct s.factory <;> cases o <;> simp [step, hg, h]
  | optimizeProduct o =>
    by_cases hg : canProductExtra s.factory ProductResult.optimizations <;> cases o <;>
      cases hres : s.factory.product.result <;> simp [step, hg, hres, h]
  | generateUserFlow o =>
    by_cases hg : canProductExtra s.factory ProductResult.userFlow <;> cases o <;>
      cases hres : s.factory.product.result <;> simp [step, hg, hres, h]
  | generateTechSpec o =>
    by_cases hg : canProductExtra s.factory ProductResult.techSpec <;> cases o <;>
      cases hres : s.factory.product.result <;> simp [step, hg, hres, h]
  | proceedToTech o =>
    by_cases hg : canProceedToTech s.factory <;> cases o <;> simp [step, hg, h]
  | proceedToDev o =>
    by_cases hg : canProceedToDev s.factory <;> cases o <;> simp [step, hg, h]
  | simulateLaunch => by_cases hg : canSimulateLaunch s.factory <;> simp [step, hg, h]
  | editMetricsUsers n => by_cases hg : 5 ≤ s.factory.currentStage <;> simp [step, hg, h]
  | editMetricsRetention v => by_cases hg : 5 ≤ s.factory.currentStage <;> simp [step, hg, h]
  | editMetricsRevenue v => by_cases hg : 5 ≤ s.factory.currentStage <;> simp [step, hg, h]
  | editMetricsFeedback v => by_cases hg : 5 ≤ s.factory.currentStage <;> simp [step, hg, h]
  | evaluateMetrics o =>
    by_cases hg : canEvaluateMetrics s.factory <;> cases o <;> simp [step, hg, h]
  | restart c => cases c <;> simp [step, initialApp, INITIAL_STATE, h]

theorem step_stage_mono (s : AppState) (a : AppAction)
    (ha : ∀ b : Bool, a ≠ AppAction.restart b) :
    s.factory.currentStage ≤ (step s a).factory.currentStage := by
  cases a with
  | autoResearch o =>
    by_cases hg : s.factory.currentStage = 0 <;> cases o <;> simp [step, hg]
  | editIdeaName v => by_cases hg : s.factory.currentStage = 0 <;> simp [step, hg]
  | editIdeaTargetUser v => by_cases hg : s.factory.currentStage = 0 <;> simp [step, hg]
  | editIdeaPainPoint v => by_cases hg : s.factory.currentStage = 0 <;> simp [step, hg]
  | editIdeaDescription v => by_cases hg : s.factory.currentStage = 0 <;> simp [step, hg]
  | ideaSubmit o =>
    by_cases hg : canSubmitIdea s.factory <;> cases o <;> simp [step, hg] <;>
      simp [hg.1]
  | proceedToProduct o =>
    by_cases hg : canProceedToProduct s.factory <;> cases o <;> simp [step, hg] <;>
      simp [hg.1]
  | optimizeProduct o =>
    by_cases hg : canProductExtra s.factory ProductResult.optimizations <;> cases o <;>
      cases hres : s.factory.product.result <;> simp [step, hg, hres]
  | generateUserFlow o =>
    by_cases hg : canProductExtra s.factory ProductResult.userFlow <;> cases o <;>
      cases hres : s.factory.product.result <;> simp [step, hg, hres]
  | generateTechSpec o =>
    by_cases hg : canProductExtra s.factory ProductResult.techSpec <;> cases o <;>
      cases hres : s.factory.product.result <;> simp [step, hg, hres]
  | proceedToTech o =>
    by_cases hg : canProceedToTech s.factory <;> cases o <;> simp [step, hg] <;>
      simp [hg.1]
  | proceedToDev o =>
    by_cases hg : canProceedToDev s.factory <;> cases o <;> simp [step, hg] <;>
      simp [hg.1]
  | simulateLaunch =>
    by_cases hg : canSimulateLaunch s.factory <;> simp [step, hg]
    simp [hg.1]
  | editMetricsUsers n => by_cases hg : 5 ≤ s.factory.currentStage <;> simp [step, hg]
  | editMetricsRetention v => by_cases hg : 5 ≤ s.factory.currentStage <;> simp [step, hg]
  | editMetricsRevenue v => by_cases hg : 5 ≤ s.factory.currentStage <;> simp [step, hg]
  | editMetricsFeedback v => by_cases hg : 5 ≤ s.factory.currentStage <;> simp [step, hg]
  | evaluateMetrics o =>
    by_cases hg : canEvaluateMetrics s.factory <;> cases o <;> simp [step, hg]
  | restart c => exact absurd rfl (ha c)

/-- C5: starting from the initial state the stage counter runs 0..5 in order:
every reachable state has currentStage ≤ 5, each stage-advance action invoked
at its own stage (its UI guard holding) sets currentStage to exactly the next
stage number, and no action other than restart ever decreases currentStage. -/
theorem claim5_stage_counter (s : AppState) (h : Reachable s) :
    s.factory.currentStage ≤ 5 ∧
    (∀ o : CallOutcome RadarResult, canSubmitIdea s.factory →
      (step s (AppAction.ideaSubmit o)).factory.currentStage =
        s.factory.currentStage + 1) ∧
    (∀ o : CallOutcome (Option (List Char)), canProceedToProduct s.factory →
      (step s (AppAction.proceedToProduct o)).factory.currentStage =
        s.factory.currentStage + 1) ∧
    (∀ o : CallOutcome (Option (List Char)), canProceedToTech s.factory →
      (step s (AppAction.proceedToTech o)).factory.currentStage =
        s.factory.currentStage + 1) ∧
    (∀ o : CallOutcome (Option (List Char)), canProceedToDev s.factory →
      (step s (AppAction.proceedToDev o)).factory.currentStage =
        s.factory.currentStage + 1) ∧
    (canSimulateLaunch s.factory →
      (step s AppAction.simulateLaunch).factory.currentStage =
        s.factory.currentStage + 1) ∧
    (∀ a : AppAction, (∀ b : Bool, a ≠ AppAction.restart b) →
      s.factory.currentStage ≤ (step s a).factory.currentStage) := by
  refine ⟨?_, ?_, ?_, ?_, ?_, ?_, fun a ha => step_stage_mono s a ha⟩
  · induction h with
    | init => decide
    | next hs a ih => exact step_stage_le _ a ih
  · intro o hg; cases o <;> simp [step, hg, hg.1]
  · intro o hg; cases o <;> simp [step, hg, hg.1]
  · intro o hg; cases o <;> simp [step, hg, hg.1]
  · intro o hg; cases o <;> simp [step, hg, hg.1]
  · intro hg; simp [step, hg, hg.1]

theorem claim5_witness :
    initialApp.factory.currentStage ≤ 5 ∧
    (step s0pre (AppAction.ideaSubmit (CallOutcome.err quotaMsg))).factory.currentStage =
      s0pre.factory.currentStage + 1 :=
  ⟨(claim5_stage_counter initialApp Reachable.init).1,
    (claim5_stage_counter s0pre
        (Reachable.next (Reachable.next Reachable.init (AppAction.editIdeaName ['a']))
          (AppAction.editIdeaTargetUser ['b']))).2.1
      (CallOutcome.err quotaMsg) (by decide)⟩

/-- The colour classes of `SectionHeader` (App lines 81-84). -/
inductive StatusColor
  | muted
  | success
  | danger
  | accent
deriving DecidableEq

/-- The status colour chosen by `SectionHeader` (App lines 81-84): default
muted, success for COMPLETED, danger for FAILED or SKIPPED, accent for
THINKING. -/
def statusColor (st : AgentStatus) : StatusColor :=
  match st with
  | AgentStatus.COMPLETED => StatusColor.success
  | AgentStatus.FAILED => StatusColor.danger
  | AgentStatus.SKIPPED => StatusColor.danger
  | AgentStatus.THINKING => StatusColor.accent
  | AgentStatus.IDLE => StatusColor.muted

/-- A status actually assigned by some operation. -/
def statusOk (st : AgentStatus) : Prop :=
  st = AgentStatus.IDLE ∨ st = AgentStatus.THINKING ∨ st = AgentStatus.COMPLETED ∨
  st = AgentStatus.FAILED

/-- All five stage statuses avoid SKIPPED. -/
def noSkipped (s : AppState) : Prop :=
  statusOk s.factory.radar.status ∧ statusOk s.factory.product.status ∧
  statusOk s.factory.tech.status ∧ statusOk s.factory.dev.status ∧
  statusOk s.factory.qa.status

theorem noSkipped_step (s : AppState) (a : AppAction) (ih : noSkipped s) :
    noSkipped (step s a) := by
  cases a with
  | autoResearch o =>
    by_cases hg : s.factory.currentStage = 0 <;> cases o <;>
      simp_all [step, noSkipped, statusOk]
  | editIdeaName v =>
    by_cases hg : s.factory.currentStage = 0 <;> simp_all [step, noSkipped, statusOk]
  | editIdeaTargetUser v =>
    by_cases hg : s.factory.currentStage = 0 <;> simp_all [step, noSkipped, statusOk]
  | editIdeaPainPoint v =>
    by_cases hg : s.factory.currentStage = 0 <;> simp_all [step, noSkipped, statusOk]
  | editIdeaDescription v =>
    by_cases hg : s.factory.currentStage = 0 <;> simp_all [step, noSkipped, statusOk]
  | ideaSubmit o =>
    by_cases hg : canSubmitIdea s.factory <;> cases o <;>
      simp_all [step, noSkipped, statusOk]
  | proceedToProduct o =>
    by_cases hg : canProceedToProduct s.factory <;> cases o <;>
      simp_all [step, noSkipped, statusOk]
  | optimizeProduct o =>
    by_cases hg : canProductExtra s.factory ProductResult.optimizations <;> cases o <;>
      cases hres : s.factory.product.result <;> simp_all [step, noSkipped, statusOk]
  | generateUserFlow o =>
    by_cases hg : canProductExtra s.factory ProductResult.userFlow <;> cases o <;>
      cases hres : s.factory.product.result <;> simp_all [step, noSkipped, statusOk]
  | generateTechSpec o =>
    by_cases hg : canProductExtra s.factory ProductResult.techSpec <;> cases o <;>
      cases hres : s.factory.product.result <;> simp_all [step, noSkipped, statusOk]
  | proceedToTech o =>
    by_cases hg : canProceedToTech s.factory <;> cases o <;>
      simp_all [step, noSkipped, statusOk]
  | proceedToDev o =>
    by_cases hg : canProceedToDev s.factory <;> cases o <;>
      simp_all [step, noSkipped, statusOk]
  | simulateLaunch =>
    by_cases hg : canSimulateLaunch s.factory <;> simp_all [step, noSkipped, statusOk]
  | editMetricsUsers n =>
    simp only [step]
    by_cases hg : 5 ≤ s.factory.currentStage
    · rw [if_pos hg]
      simp_all [noSkipped, statusOk]
    · rw [if_neg hg]
      exact ih
  | editMetricsRetention v =>
    simp only [step]
    by_cases hg : 5 ≤ s.factory.currentStage
    · rw [if_pos hg]
      simp_all [noSkipped, statusOk]
    · rw [if_neg hg]
      exact ih
  | editMetricsRevenue v =>
    simp only [step]
    by_cases hg : 5 ≤ s.factory.currentStage
    · rw [if_pos hg]
      simp_all [noSkipped, statusOk]
    · rw [if_neg hg]
      exact ih
  | editMetricsFeedback v =>
    simp only [step]
    by_cases hg : 5 ≤ s.factory.currentStage
    · rw [if_pos hg]
      simp_all [noSkipped, statusOk]
    · rw [if_neg hg]
      exact ih
  | evaluateMetrics o =>
    by_cases hg : canEvaluateMetrics s.factory <;> cases o <;>
      simp_all [step, noSkipped, statusOk]
  | restart c =>
    cases c <;> simp_all [step, noSkipped, statusOk, initialApp, INITIAL_STATE]

/-- C10: although the status enum has SKIPPED and the sidebar renders the
danger colour for it, no operation ever assigns it: in every reachable state
each of the five stage statuses is IDLE, THINKING, COMPLETED, or FAILED. -/
theorem claim10_no_skipped (s : AppState) (h : Reachable s) :
    statusOk s.factory.radar.status ∧ statusOk s.factory.product.status ∧
    statusOk s.factory.tech.status ∧ statusOk s.factory.dev.status ∧
    statusOk s.factory.qa.status ∧
    statusColor AgentStatus.SKIPPED = StatusColor.danger := by
  have hs : noSkipped s := by
    induction h with
    | init => exact ⟨Or.inl rfl, Or.inl rfl, Or.inl rfl, Or.inl rfl, Or.inl rfl⟩
    | next hr a ih => exact noSkipped_step _ a ih
  exact ⟨hs.1, hs.2.1, hs.2.2.1, hs.2.2.2.1, hs.2.2.2.2, rfl⟩

theorem claim10_witness :
    statusOk sReach1.factory.radar.status ∧ statusOk sReach1.factory.product.status ∧
    statusOk sReach1.factory.tech.status ∧ statusOk sReach1.factory.dev.status ∧
    statusOk sReach1.factory.qa.status ∧
    statusColor AgentStatus.SKIPPED = StatusColor.danger :=
  claim10_no_skipped sReach1
    (Reachable.next
      (Reachable.next (Reachable.next Reachable.init (AppAction.editIdeaName ['a']))
        (AppAction.editIdeaTargetUser ['b']))
      (AppAction.ideaSubmit (CallOutcome.ok radarOk)))
